import Mathlib

/-!
Verification development for the Rules_Engine repository's frontend core:
the simulate example-data generator (SimulateModal: getExampleData and its
recursive processClause), the SimulateModal run/render logic, and the
CreateRuleModal form submission (handleSubmit).

Modelling conventions (shallow embedding of the JavaScript source):
* JSON-like runtime values are the inductive `Json` below.  Machine strings
  holding calendar data are modelled by their numeric content:
  `Json.dateOnly d` stands for the date-only ISO string of day number `d`
  (days since the Unix epoch, what the source builds with
  toISOString().split on the T separator), and `Json.dateTime ms` stands for
  the full ISO timestamp of instant `ms` (milliseconds since the epoch,
  what toISOString() returns).  Both encodings are injective, so this
  abstraction is faithful.  `Json.undef` models the JavaScript undefined
  value and `Json.nan` models NaN; neither is ever produced by JSON.parse,
  they only arise from runtime computation.
* Numbers are modelled as integers; every numeric literal appearing in the
  source and in the claims is an integer and all arithmetic performed on
  them is exact in floating point.
* The modules are ES modules, hence strict mode: a property write on a
  primitive raises TypeError.  Fallible computations return Option, with
  `none` meaning an exception was raised.
* Property writes on arrays succeed in JavaScript but the written named
  properties are invisible to JSON serialization (the only consumer of the
  generated state); they are modelled as dropped writes.
* The current instant is captured once as a parameter `now` (milliseconds
  since the epoch); the source calls new Date() per clause, but all such
  calls within one generation observe the same clock for our purposes.
-/

namespace RulesEngine

/-- JSON-like runtime values of the modelled JavaScript program. -/
inductive Json where
  | null
  | undef
  | nan
  | bool (b : Bool)
  | num (n : Int)
  | str (s : String)
  | dateOnly (day : Int)
  | dateTime (ms : Int)
  | arr (elems : List Json)
  | obj (fields : List (String × Json))

/-- Property lookup in an object's field list (JavaScript objects have
unique keys; JSON.parse deduplicates, keeping the last occurrence, so the
field lists we build have unique keys and first-match lookup is exact). -/
def getField : List (String × Json) → String → Option Json
  | [], _ => none
  | (k, v) :: rest, key => if k == key then some v else getField rest key

/-- Property write: overwrite in place (JavaScript keeps the original
insertion position) or append a new field. -/
def setField : List (String × Json) → String → Json → List (String × Json)
  | [], key, v => [(key, v)]
  | (k, w) :: rest, key, v =>
      if k == key then (key, v) :: rest else (k, w) :: setField rest key v

/-- Property access `j.key`: objects look up the field, every other value
yields undefined (modelled as `none`); the call sites guard against null
and undefined receivers separately. -/
def jsGet : Json → String → Option Json
  | .obj fs, key => getField fs key
  | _, _ => none

/-- JavaScript truthiness. `dateOnly`/`dateTime` model nonempty strings,
hence truthy. -/
def truthy : Json → Bool
  | .null => false
  | .undef => false
  | .nan => false
  | .bool b => b
  | .num n => n != 0
  | .str s => s != ""
  | .dateOnly _ => true
  | .dateTime _ => true
  | .arr _ => true
  | .obj _ => true

/-- Truthiness of a possibly-undefined value. -/
def truthyO : Option Json → Bool
  | none => false
  | some j => truthy j

/-- `v || d` on a possibly-undefined left operand. -/
def jsOr (v : Option Json) (d : Json) : Json :=
  match v with
  | some j => if truthy j then j else d
  | none => d

/-- `v ? f v : d` on a possibly-undefined scrutinee. -/
def jsTern (v : Option Json) (f : Json → Json) (d : Json) : Json :=
  match v with
  | some j => if truthy j then f j else d
  | none => d

/-- Strict equality `j === s` against a string literal. -/
def isStr (j : Json) (s : String) : Bool :=
  match j with
  | .str t => t == s
  | _ => false

/-- Strict equality against a string literal, possibly-undefined operand. -/
def isStrO (o : Option Json) (s : String) : Bool :=
  match o with
  | some j => isStr j s
  | _ => false

/-- `j.isObj`: discriminates plain objects. -/
def Json.isObj : Json → Bool
  | .obj _ => true
  | _ => false

/-- The first list is an initial segment of the second (character-level
model of String.prototype.startsWith). -/
def leadsWith : List Char → List Char → Bool
  | [], _ => true
  | _ :: _, [] => false
  | p :: ps, c :: cs => p == c && leadsWith ps cs

/-- The second list occurs as a contiguous run inside the first
(character-level model of String.prototype.includes). -/
def hasSubstr : List Char → List Char → Bool
  | l, pat =>
    match l with
    | [] => pat.isEmpty
    | _ :: rest => leadsWith pat l || hasSubstr rest pat

/-- String.prototype.startsWith. -/
def jsStartsWith (s pat : String) : Bool :=
  leadsWith pat.data s.data

/-- Drop the first n characters (String.prototype.replace of a leading
literal the string is known to start with). -/
def strDrop (s : String) (n : Nat) : String :=
  ⟨s.data.drop n⟩

/-- String.prototype.split on a single-character separator. -/
def splitOnChar (sep : Char) : List Char → List (List Char)
  | [] => [[]]
  | c :: rest =>
    match splitOnChar sep rest with
    | [] => [[c]]
    | g :: gs => if c == sep then [] :: g :: gs else (c :: g) :: gs

/-- String.prototype.split on a single-character separator, as strings. -/
def jsSplit (sep : Char) (s : String) : List String :=
  (splitOnChar sep s.data).map (fun l => String.mk l)

/-- String.prototype.trim (whitespace at both ends). -/
def jsTrim (s : String) : String :=
  ⟨((s.data.dropWhile Char.isWhitespace).reverse.dropWhile Char.isWhitespace).reverse⟩

mutual
/-- Array.prototype.toString: the elements joined with commas. -/
def jsJoinStr : List Json → String
  | [] => ""
  | [x] => jsElemStr x
  | x :: y :: rest => jsElemStr x ++ "," ++ jsJoinStr (y :: rest)

/-- String conversion of an element inside Array.prototype.join: null and
undefined become empty, other values their usual string form.  The forms
for `dateOnly`/`dateTime` are stand-ins for the modelled ISO strings; these
constructors never occur in parsed rule JSON, so the stand-ins are
unreachable from the claims. -/
def jsElemStr : Json → String
  | .null => ""
  | .undef => ""
  | .nan => "NaN"
  | .bool b => if b then "true" else "false"
  | .num n => toString n
  | .str s => s
  | .dateOnly d => "date-only:" ++ toString d
  | .dateTime t => "date-time:" ++ toString t
  | .arr xs => jsJoinStr xs
  | .obj _ => "[object Object]"
end

/-- Decimal digit run to a natural number. -/
def digitsToNat (ds : List Char) : Nat :=
  ds.foldl (fun a c => a * 10 + (c.toNat - 48)) 0

/-- ToNumber on a string, restricted to the decimal integer numerals that
occur in rule JSON in this repository (a trimmed empty string is 0; a
nonnumeric string is NaN, modelled as `none`). -/
def strToNumber (s : String) : Option Int :=
  let t := jsTrim s
  if t = "" then some 0
  else
    match t.data with
    | '-' :: ds => if !ds.isEmpty && ds.all Char.isDigit then some (-(digitsToNat ds : Int)) else none
    | '+' :: ds => if !ds.isEmpty && ds.all Char.isDigit then some (digitsToNat ds : Int) else none
    | ds => if ds.all Char.isDigit then some (digitsToNat ds : Int) else none

/-- ToNumber coercion; `none` is NaN. -/
def jsToNumber : Json → Option Int
  | .null => some 0
  | .undef => none
  | .nan => none
  | .bool b => some (if b then 1 else 0)
  | .num n => some n
  | .str s => strToNumber s
  | .dateOnly _ => none
  | .dateTime _ => none
  | .arr xs => strToNumber (jsJoinStr xs)
  | .obj _ => none

/-- ToPrimitive for the binary plus: operands that end up as strings. -/
def jsPrimString : Json → Option String
  | .str s => some s
  | .dateOnly d => some ("date-only:" ++ toString d)
  | .dateTime t => some ("date-time:" ++ toString t)
  | .arr xs => some (jsJoinStr xs)
  | .obj _ => some "[object Object]"
  | _ => none

/-- `v + n` with a number literal on the right: string-like left operands
concatenate, the rest go through ToNumber. -/
def jsAdd (v : Json) (n : Int) : Json :=
  match jsPrimString v with
  | some s => .str (s ++ toString n)
  | none =>
    match jsToNumber v with
    | some m => .num (m + n)
    | none => .nan

/-- `v - n` with a number literal on the right: both sides through
ToNumber. -/
def jsSub (v : Json) (n : Int) : Json :=
  match jsToNumber v with
  | some m => .num (m - n)
  | none => .nan

/-- String.prototype.includes for a nonempty constant pattern (every
pattern in the source is a nonempty literal). -/
def jsIncludes (s pat : String) : Bool :=
  hasSubstr s.data pat.data

/-- `j.includes(pat)` on a dynamic receiver: strings search for a
substring, arrays test membership by strict equality; other receivers have
no includes method (TypeError, modelled as `none`).  A modelled ISO date
string never contains the dotted-path patterns searched for by the
source, so those receivers answer false. -/
def jsIncludesDyn (j : Json) (pat : String) : Option Bool :=
  match j with
  | .str s => some (jsIncludes s pat)
  | .arr xs => some (xs.any (fun e => isStr e pat))
  | .dateOnly _ => some false
  | .dateTime _ => some false
  | _ => none

/-- `a[0]` on a possibly-undefined receiver: arrays index, strings index
into characters, objects look up key "0"; numbers and booleans yield
undefined.  (The call site has already required the receiver truthy.) -/
def jsIdx0 : Option Json → Option Json
  | some (.arr (x :: _)) => some x
  | some (.arr []) => none
  | some (.str s) => if s = "" then none else some (.str ⟨s.data.take 1⟩)
  | some (.obj fs) => getField fs "0"
  | _ => none

/-- The mutable pair of example documents built by getExampleData:
`eventExample` and `contextExample` (both always plain objects at the top
level). -/
structure GenState where
  event : List (String × Json)
  context : List (String × Json)

/-- `eventExample.k = v`. -/
def setEv (st : GenState) (k : String) (v : Json) : GenState :=
  { st with event := setField st.event k v }

/-- The initial example state of getExampleData:
eventExample = the empty object, contextExample = an object with an empty
user object. -/
def initialGenState : GenState :=
  ⟨[], [("user", Json.obj [])]⟩

/-- Milliseconds in a day, used to convert the captured instant to a UTC
day number. -/
def msPerDay : Nat := 86400000

/-- The date-only value five days before the captured instant `now`:
new Date(); date.setDate(date.getDate() - 5); then the date part of
toISOString().  Shifting the calendar date by five days subtracts exactly
five days from the instant, and the date part of the ISO form is the UTC
day number. -/
def fiveDaysAgo (now : Nat) : Json :=
  .dateOnly (((now / msPerDay : Nat) : Int) - 5)

/-- The `event.` prefixed branch of processClause: writes one example
field into eventExample according to the field name, operator and clause
value. -/
def processEventField (now : Nat) (f : String) (op : Json) (value : Option Json)
    (st : GenState) : Option GenState :=
  -- const fieldName = field.replace("event.", "")  (field starts with the prefix)
  let fieldName := strDrop f 6
  if fieldName == "type" then
    some (setEv st "type" (jsOr value (.str "purchase")))
  else if fieldName == "amount" then
    some (setEv st "amount"
      (if isStr op ">" then jsTern value (fun v => jsAdd v 1000) (.num 11000)
       else if isStr op ">=" then jsTern value (fun v => jsAdd v 100) (.num 1100)
       else if isStr op "<" then jsTern value (fun v => jsSub v 100) (.num 900)
       else jsOr value (.num 1000)))
  else if fieldName == "stock_level" then
    some (setEv st "stock_level"
      (if isStr op "<=" then jsTern value (fun v => jsSub v 1) (.num 9)
       else jsOr value (.num 10)))
  else if fieldName == "product_category" then
    some (setEv st "product_category" (jsOr value (.str "alcohol")))
  else if fieldName == "day_of_week" then
    -- value && Array.isArray(value) ? value[0] : "Saturday"
    some (setEv st "day_of_week"
      (match value with
       | some (.arr []) => .undef
       | some (.arr (x :: _)) => x
       | _ => .str "Saturday"))
  else if jsIncludes fieldName "cart.total" then
    -- if (!eventExample.cart) eventExample.cart = {}; then set cart.total
    let v := if isStr op ">=" then jsTern value (fun w => jsAdd w 100) (.num 600)
             else jsOr value (.num 500)
    match getField st.event "cart" with
    | some c =>
      if truthy c then
        match c with
        | .obj cfs =>
            some { st with event := setField st.event "cart" (.obj (setField cfs "total" v)) }
        | .arr _ => some st
        | _ => none
      else
        some { st with event := setField st.event "cart" (.obj [("total", v)]) }
    | none => some { st with event := setField st.event "cart" (.obj [("total", v)]) }
  else if fieldName == "timestamp" then
    some (setEv st "timestamp" (.dateTime (now : Int)))
  else
    some st

/-- Value written for a recognized context field name (the lastField
handlers of processClause); `none` means the name is not handled and
nothing is assigned. -/
def contextValueFor (now : Nat) (last : String) (op : Json) (value : Option Json) :
    Option Json :=
  if last == "tier" then
    some (jsOr value (.str "premium"))
  else if last == "account_status" then
    -- op === carries the source's value === "frozen" ? "active" : "active"
    some (if isStr op "!=" then
            (if isStrO value "frozen" then Json.str "active" else Json.str "active")
          else jsOr value (.str "active"))
  else if last == "signup_date" then
    some (fiveDaysAgo now)
  else if last == "transaction_countries" then
    some (if isStr op "contains" then
            jsTern value (fun v => .arr [v, .str "UK", .str "CA"]) (.arr [.str "US", .str "UK"])
          else
            match value with
            | some (.arr xs) => .arr xs
            | _ => .arr [jsOr value (.str "US")])
  else if last == "suspicious_activity" then
    -- value !== undefined ? value : true
    some (match value with
          | some v => v
          | none => .bool true)
  else if last == "age" then
    some (if isStr op "<" then jsTern value (fun v => jsSub v 1) (.num 20)
          else jsOr value (.num 25))
  else
    none

/-- The walk of the context-field branch: descend through the path's
intermediate keys, creating empty objects where the current value is
falsy or absent, then assign the handler's value (if any) at the last
key.  A truthy primitive on the way raises TypeError in strict mode —
except when it is reached as the final parent and no assignment happens.
Named-property writes on arrays succeed but are invisible to JSON
serialization, modelled as dropped. -/
def contextAssign : List (String × Json) → List String → String → Option Json →
    Option (List (String × Json))
  | fs, [], last, v =>
    match v with
    | some w => some (setField fs last w)
    | none => some fs
  | fs, k :: rest, last, v =>
    match getField fs k with
    | some c =>
      if truthy c then
        match c with
        | .obj cfs =>
          match contextAssign cfs rest last v with
          | some cfs' => some (setField fs k (.obj cfs'))
          | none => none
        | .arr _ => some fs
        | _ =>
          match rest, v with
          | [], none => some fs
          | [], some _ => none
          | _ :: _, _ => none
      else
        match contextAssign [] rest last v with
        | some cfs' => some (setField fs k (.obj cfs'))
        | none => none
    | none =>
      match contextAssign [] rest last v with
      | some cfs' => some (setField fs k (.obj cfs'))
      | none => none

/-- The `context.` prefixed branch of processClause. -/
def processContextField (now : Nat) (f : String) (op : Json) (value : Option Json)
    (st : GenState) : Option GenState :=
  -- const fieldPath = field.replace("context.", "").split(".")
  let parts := jsSplit '.' (strDrop f 8)
  let last := parts.getLastD ""
  match contextAssign st.context parts.dropLast last (contextValueFor now last op value) with
  | some c => some { st with context := c }
  | none => none

/-- The function-call branch of processClause: handles
clause.fn === "days_since" with a truthy first argument. -/
def processFn (now : Nat) (clause : Json) (st : GenState) : Option GenState :=
  if isStrO (jsGet clause "fn") "days_since"
      && truthyO (jsGet clause "args") && truthyO (jsIdx0 (jsGet clause "args")) then
    match jsIdx0 (jsGet clause "args") with
    | some fieldPath =>
      match jsIncludesDyn fieldPath "event.timestamp" with
      | none => none
      | some true => some (setEv st "timestamp" (.dateTime (now : Int)))
      | some false =>
        match jsIncludesDyn fieldPath "context.user.signup_date" with
        | none => none
        | some true =>
          -- contextExample.user.signup_date = <five days ago, date only>
          match getField st.context "user" with
          | some (.obj ufs) =>
            let ufs' := setField ufs "signup_date" (fiveDaysAgo now)
            some { st with context := setField st.context "user" (.obj ufs') }
          | some (.arr _) => some st
          | some _ => none
          | none => none
        | some false => some st
    | none => none
  else
    some st

/-- The leaf branch of processClause: field/op/value extraction, early
return on a falsy field, and the event/context prefixed handlers.  A
truthy non-string field has no startsWith method: TypeError.  The
modelled ISO strings start with a digit, so they match neither prefix. -/
def processLeafFields (now : Nat) (clause : Json) (st : GenState) : Option GenState :=
  let field := jsOr (jsGet clause "field") (.str "")
  let op := jsOr (jsGet clause "op") (.str "")
  let value := jsGet clause "value"
  if truthy field = false then some st
  else
    match field with
    | .str f =>
      match (if jsStartsWith f "event." then processEventField now f op value st else some st) with
      | none => none
      | some st1 =>
        if jsStartsWith f "context." then processContextField now f op value st1 else some st1
    | .dateOnly _ => some st
    | .dateTime _ => some st
    | _ => none

theorem getField_sizeOf_lt (fs : List (String × Json)) (k : String) (v : Json)
    (h : getField fs k = some v) : sizeOf v < sizeOf fs := by
  induction fs with
  | nil => simp [getField] at h
  | cons p rest ih =>
    obtain ⟨k', w⟩ := p
    by_cases hk : (k' == k) = true
    · simp [getField, hk] at h
      subst h
      simp
      omega
    · simp [getField, hk] at h
      have := ih h
      simp
      omega

theorem jsGet_sizeOf_lt (j : Json) (k : String) (v : Json)
    (h : jsGet j k = some v) : sizeOf v < sizeOf j := by
  cases j with
  | obj fs =>
    have := getField_sizeOf_lt fs k v h
    simp
    omega
  | _ => simp [jsGet] at h

set_option linter.unusedVariables false in
mutual
/-- The recursive clause processor of getExampleData.  Nested logical
nodes (truthy type and clauses) recurse into each listed clause in order;
function-call clauses are handled by processFn; everything else goes
through the field handlers. -/
def processClause (now : Nat) (clause : Json) (st : GenState) : Option GenState :=
  if truthy clause = false then some st
  else if truthyO (jsGet clause "type") && truthyO (jsGet clause "clauses") then
    match h : jsGet clause "clauses" with
    | some (.arr xs) => processList now xs st
    | some _ => none
    | none => none
  else if truthyO (jsGet clause "fn") then
    processFn now clause st
  else
    processLeafFields now clause st
termination_by sizeOf clause
decreasing_by
  · have h1 := jsGet_sizeOf_lt clause "clauses" (Json.arr xs) h
    simp at h1
    omega

/-- clause.clauses.forEach(processClause): processes the clauses in order,
threading the example state; an exception in any clause aborts the rest. -/
def processList (now : Nat) (cs : List Json) (st : GenState) : Option GenState :=
  match cs with
  | [] => some st
  | c :: rest =>
    match processClause now c st with
    | none => none
    | some st' => processList now rest st'
termination_by sizeOf cs
decreasing_by
  all_goals simp
  all_goals omega
end

/-- Object.keys(j).length.  Keys of an array are its indices, of a string
its character positions; numbers and booleans have none; null and
undefined raise TypeError.  The stand-in lengths for the modelled ISO
strings are their actual lengths (10 for a date, 24 for a timestamp). -/
def jsKeysLen : Json → Option Nat
  | .obj fs => some fs.length
  | .arr xs => some xs.length
  | .str s => some s.data.length
  | .dateOnly _ => some 10
  | .dateTime _ => some 24
  | .num _ => some 0
  | .bool _ => some 0
  | .nan => some 0
  | .null => none
  | .undef => none

/-- The trailing default block of getExampleData: replace an empty
eventExample with the purchase example and an empty contextExample.user
with the premium-tier user. -/
def applyDefaults (st : GenState) : Option GenState :=
  let ev := if st.event.length == 0
            then [("type", Json.str "purchase"), ("amount", Json.num 1000)]
            else st.event
  match getField st.context "user" with
  | none => none
  | some u =>
    match jsKeysLen u with
    | none => none
    | some n =>
      some ⟨ev, if n == 0
                then setField st.context "user" (.obj [("tier", Json.str "premium")])
                else st.context⟩

/-- getExampleData: take the rule's conditions (an empty object when the
rule or its conditions are missing), process the top-level clauses list —
or the conditions themselves when they are a single field clause — and
apply the defaults. -/
def getExampleData (now : Nat) (rule : Option Json) : Option GenState :=
  let conditions :=
    match rule with
    | none => Json.obj []
    | some r =>
      match jsGet r "conditions" with
      | some c => if truthy c then c else Json.obj []
      | none => Json.obj []
  let processed :=
    if truthyO (jsGet conditions "clauses") then
      match jsGet conditions "clauses" with
      | some (.arr xs) => processList now xs initialGenState
      | _ => none
    else if truthyO (jsGet conditions "field") then
      processClause now conditions initialGenState
    else
      some initialGenState
  match processed with
  | some st => applyDefaults st
  | none => none

/-- The run handler of SimulateModal, at the JSON.parse boundary: the two
textarea contents are represented by their parse results (`none` when
JSON.parse throws).  The result is the `(event, context)` pair handed to
onSimulate, or `none` when the catch block runs and no callback is
invoked. -/
def runModel (eventText contextText : Option Json) : Option (Json × Json) :=
  match eventText, contextText with
  | some e, some c => some (e, c)
  | _, _ => none

/-- Whether SimulateModal renders the would-execute actions block for a
given result prop: the result must be present and truthy and its matched
property truthy. -/
def showsWouldExecute (result : Option Json) : Bool :=
  match result with
  | none => false
  | some r => truthy r && truthyO (jsGet r "matched")

/-- The default conditions template of the create-rule form. -/
def createRuleDefaultConditions : Json :=
  .obj [("type", .str "AND"),
        ("clauses", .arr [
          .obj [("field", .str "context.user.tier"), ("op", .str "=="), ("value", .str "premium")],
          .obj [("field", .str "event.cart.total"), ("op", .str ">="), ("value", .num 1000)]])]

/-- The default actions template of the create-rule form. -/
def createRuleDefaultActions : Json :=
  .arr [.obj [("type", .str "apply_discount"), ("payload", .obj [("percent", .num 10)])],
        .obj [("type", .str "log"), ("payload", .obj [("tag", .str "promo_applied")])]]

/-- The scenario condition written from the spec's words: the wire shape
of a logical AND node over the two leaves
context.user.tier == "premium" and event.cart.total >= 1000, in that
order. -/
def spec8ScenarioCondition : Json :=
  .obj [("type", .str "AND"),
        ("clauses", .arr [
          .obj [("field", .str "context.user.tier"), ("op", .str "=="), ("value", .str "premium")],
          .obj [("field", .str "event.cart.total"), ("op", .str ">="), ("value", .num 1000)]])]

/-- A normalized action as built by handleSubmit: the raw element's type
and payload after the `|| "unknown"` and the `|| empty-object`
defaults.  Nothing constrains them to be a string and an object. -/
structure ActionData where
  type : Json
  payload : Json

/-- Normalization of one raw action element.  Property access on null or
undefined raises TypeError; on any other value it is the object lookup or
undefined. -/
def normalizeAction (a : Json) : Option ActionData :=
  match a with
  | .null => none
  | .undef => none
  | _ => some ⟨jsOr (jsGet a "type") (.str "unknown"), jsOr (jsGet a "payload") (.obj [])⟩

/-- actionsRaw.map over normalizeAction; the first element that raises
aborts the whole map. -/
def normalizeList : List Json → Option (List ActionData)
  | [] => some []
  | a :: rest =>
    match normalizeAction a with
    | none => none
    | some nd =>
      match normalizeList rest with
      | none => none
      | some nds => some (nd :: nds)

/-- Array.isArray dispatch of handleSubmit: arrays are mapped, anything
else becomes the empty actions list. -/
def normalizeActions (raw : Json) : Option (List ActionData) :=
  match raw with
  | .arr xs => normalizeList xs
  | _ => some []

/-- Decimal digit predicate (code points 48-57). -/
def jsDigit (c : Char) : Bool :=
  48 ≤ c.toNat && c.toNat ≤ 57

/-- Whitespace skipped by parseInt (space, tab, line feed, vertical tab,
form feed, carriage return). -/
def jsSpace (c : Char) : Bool :=
  c.toNat == 32 || c.toNat == 9 || c.toNat == 10 || c.toNat == 11 || c.toNat == 12 || c.toNat == 13

/-- The longest leading run of decimal digits as a number; no digits is
NaN. -/
def parseDigitRun (l : List Char) : Json :=
  let ds := l.takeWhile jsDigit
  if ds.isEmpty then .nan else .num (digitsToNat ds : Int)

/-- parseInt radix 10 on a string: skip leading whitespace, read an
optional sign and the longest run of decimal digits; no digits is NaN. -/
def parseIntStr (s : String) : Json :=
  match s.data.dropWhile jsSpace with
  | [] => .nan
  | c :: rest =>
    if c == '-' then
      match parseDigitRun rest with
      | .num n => .num (-n)
      | _ => .nan
    else if c == '+' then parseDigitRun rest
    else parseDigitRun (c :: rest)

/-- String coercion applied by parseInt to a non-string argument. -/
def jsStringCoerce : Json → String
  | .null => "null"
  | .undef => "undefined"
  | j => jsElemStr j

/-- parseInt(j, 10) on an arbitrary value. -/
def jsParseInt (j : Json) : Json :=
  parseIntStr (jsStringCoerce j)

/-- The rule payload built by handleSubmit and handed to onCreate. -/
structure RuleData where
  name : String
  priority : Json
  conditions : Json
  actions : List ActionData
  tags : List String
  stop_on_match : Bool
  description : Option String

/-- The create-rule form state at submission time, with the two JSON
textareas represented by their JSON.parse results (`none` when the parse
throws).  The priority is a number on first render and the raw input
string after any edit. -/
structure FormData where
  name : String
  priority : Json
  description : String
  conditions : Option Json
  actions : Option Json
  tags : String
  stop_on_match : Bool

/-- handleSubmit: parse conditions, parse actions, normalize the actions
(any exception lands in the same catch block and no rule is created),
then build the rule payload passed to onCreate. -/
def handleSubmitModel (fd : FormData) : Option RuleData :=
  match fd.conditions with
  | none => none
  | some conditions =>
    match fd.actions with
    | none => none
    | some actionsRaw =>
      match normalizeActions actionsRaw with
      | none => none
      | some actions =>
        some {
          name := fd.name
          priority := jsParseInt (jsOr (some fd.priority) (.num 100))
          conditions := conditions
          actions := actions
          tags := ((jsSplit ',' fd.tags).map jsTrim).filter (fun t => !(t == ""))
          stop_on_match := fd.stop_on_match
          description := if fd.description == "" then none else some fd.description }

/-- Valid value strings of an HTML number input (a valid floating-point
number: optional minus sign, digits, optional fraction, optional
exponent).  Any other typed content is exposed to the page as the empty
string. -/
def validExpPart : List Char → Bool
  | [] => true
  | 'e' :: rest => validSignedDigits rest
  | 'E' :: rest => validSignedDigits rest
  | _ => false
where
  validSignedDigits : List Char → Bool
    | '-' :: rest => !rest.isEmpty && rest.all jsDigit
    | '+' :: rest => !rest.isEmpty && rest.all jsDigit
    | l => !l.isEmpty && l.all jsDigit

/-- Fraction-then-exponent part of a valid number-input value. -/
def validFracPart : List Char → Bool
  | [] => true
  | '.' :: rest =>
    let ds := rest.takeWhile jsDigit
    !ds.isEmpty && validExpPart (rest.drop ds.length)
  | l => validExpPart l

/-- Unsigned part of a valid number-input value. -/
def validUnsigned (l : List Char) : Bool :=
  let ds := l.takeWhile jsDigit
  !ds.isEmpty && validFracPart (l.drop ds.length)

/-- A valid (nonempty) number-input value string. -/
def isValidNumberInput (s : String) : Bool :=
  match s.data with
  | '-' :: rest => validUnsigned rest
  | l => validUnsigned l

/-- The states the priority form field can be in at submission: the
initial numeric 100, or the string value of the number input — empty or a
valid floating-point numeral. -/
def priorityReachable (p : Json) : Prop :=
  p = .num 100 ∨ ∃ s, p = .str s ∧ (s = "" ∨ isValidNumberInput s = true)

/-- Modelled from the spec: the function library's days_since (the
backend component of §4.3 is not under src/).  Per the spec it parses the
resolved value as a calendar date — a date-only value is taken at UTC
midnight — and returns the integer number of whole days between that date
and the evaluation's captured current time; anything unparseable is
Unresolved (`none`). -/
def daysSinceSpec (now : Nat) : Json → Option Int
  | .dateOnly d => some (((now : Int) - d * (msPerDay : Int)) / (msPerDay : Int))
  | .dateTime t => some (((now : Int) - t) / (msPerDay : Int))
  | _ => none

/-! ### Unfolding lemmas for the recursive clause processor -/

theorem processClause_eq_leaf (now : Nat) (clause : Json) (st : GenState)
    (h1 : truthy clause = true)
    (h2 : (truthyO (jsGet clause "type") && truthyO (jsGet clause "clauses")) = false)
    (h3 : truthyO (jsGet clause "fn") = false) :
    processClause now clause st = processLeafFields now clause st := by
  rw [processClause]
  simp [h1, h2, h3]

theorem processClause_eq_fn (now : Nat) (clause : Json) (st : GenState)
    (h1 : truthy clause = true)
    (h2 : (truthyO (jsGet clause "type") && truthyO (jsGet clause "clauses")) = false)
    (h3 : truthyO (jsGet clause "fn") = true) :
    processClause now clause st = processFn now clause st := by
  rw [processClause]
  simp [h1, h2, h3]

theorem processClause_eq_logical (now : Nat) (clause : Json) (st : GenState) (xs : List Json)
    (h1 : truthy clause = true)
    (h2 : truthyO (jsGet clause "type") = true)
    (h3 : jsGet clause "clauses" = some (.arr xs)) :
    processClause now clause st = processList now xs st := by
  rw [processClause, h1, h2, h3]
  simp [truthyO, truthy]

theorem processList_nil (now : Nat) (st : GenState) :
    processList now [] st = some st := by
  rw [processList]

theorem processList_cons (now : Nat) (c : Json) (rest : List Json) (st : GenState) :
    processList now (c :: rest) st =
      match processClause now c st with
      | none => none
      | some st' => processList now rest st' := by
  rw [processList]

/-! ### Helper lemmas about field lists -/

theorem getField_setField (fs : List (String × Json)) (k : String) (v : Json) :
    getField (setField fs k v) k = some v := by
  induction fs with
  | nil => simp [getField, setField]
  | cons p rest ih =>
    obtain ⟨k', w⟩ := p
    by_cases hk : (k' == k) = true
    · simp [setField, hk, getField]
    · simp [setField, hk, getField, ih]

/-! ### Clause shapes used by the claims -/

/-- A leaf clause in the wire shape of the spec, whose field is the
FunctionCall object. -/
def wireFnClause (p : String) (op v : Json) : Json :=
  .obj [("field", .obj [("fn", .str "days_since"), ("args", .arr [.str p])]),
        ("op", op), ("value", v)]

/-- A clause carrying the days_since call as its own fn/args properties
(the shape the generator inspects). -/
def fnClause (p : String) (op v : Json) : Json :=
  .obj [("fn", .str "days_since"), ("args", .arr [.str p]), ("op", op), ("value", v)]

/-- The leaf clause on the signup-date context field. -/
def leafSignupClause (op v : Json) : Json :=
  .obj [("field", .str "context.user.signup_date"), ("op", op), ("value", v)]

/-- A clause with a falsy fn property (the empty string) next to ordinary
field/op/value properties. -/
def falsyFnClause : Json :=
  .obj [("fn", .str ""), ("field", .str "event.type"), ("op", .str "=="), ("value", .str "x")]

/-! ### Behaviour of the generator on those shapes -/

theorem jsIncludes_ne_empty (p pat : String) (hpat : pat ≠ "")
    (h : jsIncludes p pat = true) : p ≠ "" := by
  intro he
  subst he
  simp [jsIncludes, hasSubstr, List.isEmpty] at h
  exact hpat (by cases pat with | mk d => cases d with | nil => rfl | cons a b => simp at h)

theorem daysSince_fiveDaysAgo (now : Nat) : daysSinceSpec now (fiveDaysAgo now) = some 5 := by
  simp [daysSinceSpec, fiveDaysAgo, msPerDay]
  omega

theorem leaf_signup_sets (now : Nat) (st : GenState) (ufs : List (String × Json))
    (hu : getField st.context "user" = some (.obj ufs)) (op v : Json) :
    processClause now (leafSignupClause op v) st =
      some ⟨st.event, setField st.context "user"
              (.obj (setField ufs "signup_date" (fiveDaysAgo now)))⟩ := by
  rw [processClause_eq_leaf now (leafSignupClause op v) st rfl rfl rfl]
  simp [processLeafFields, leafSignupClause, jsGet, getField, jsOr, truthy, jsStartsWith,
        leadsWith, strDrop, jsSplit, splitOnChar, processContextField, contextValueFor,
        contextAssign, hu]

theorem fn_signup_sets (now : Nat) (st : GenState) (ufs : List (String × Json))
    (hu : getField st.context "user" = some (.obj ufs)) (p : String)
    (hp1 : jsIncludes p "event.timestamp" = false)
    (hp2 : jsIncludes p "context.user.signup_date" = true) (op v : Json) :
    processClause now (fnClause p op v) st =
      some ⟨st.event, setField st.context "user"
              (.obj (setField ufs "signup_date" (fiveDaysAgo now)))⟩ := by
  have hne : p ≠ "" := jsIncludes_ne_empty p _ (by decide) hp2
  rw [processClause_eq_fn now (fnClause p op v) st rfl rfl rfl]
  simp [processFn, fnClause, jsGet, getField, isStrO, isStr, truthyO, truthy, jsIdx0,
        jsIncludesDyn, hp1, hp2, hu, hne]

theorem fn_timestamp_sets (now : Nat) (st : GenState) (p : String)
    (hp1 : jsIncludes p "event.timestamp" = true) (op v : Json) :
    processClause now (fnClause p op v) st =
      some (setEv st "timestamp" (.dateTime (now : Int))) := by
  have hne : p ≠ "" := jsIncludes_ne_empty p _ (by decide) hp1
  rw [processClause_eq_fn now (fnClause p op v) st rfl rfl rfl]
  simp [processFn, fnClause, jsGet, getField, isStrO, isStr, truthyO, truthy, jsIdx0,
        jsIncludesDyn, hp1, hne]

theorem fn_other_path_noop (now : Nat) (st : GenState) (p : String)
    (hp1 : jsIncludes p "event.timestamp" = false)
    (hp2 : jsIncludes p "context.user.signup_date" = false) (op v : Json) :
    processClause now (fnClause p op v) st = some st := by
  rw [processClause_eq_fn now (fnClause p op v) st rfl rfl rfl]
  by_cases hne : p = ""
  · subst hne
    simp [processFn, fnClause, jsGet, getField, isStrO, isStr, truthyO, truthy, jsIdx0]
  · simp [processFn, fnClause, jsGet, getField, isStrO, isStr, truthyO, truthy, jsIdx0,
          jsIncludesDyn, hp1, hp2, hne]

theorem wire_field_object_raises (now : Nat) (st : GenState)
    (ffs : List (String × Json)) (op v : Json) :
    processClause now (.obj [("field", .obj ffs), ("op", op), ("value", v)]) st = none := by
  rw [processClause_eq_leaf now (.obj [("field", .obj ffs), ("op", op), ("value", v)]) st
        rfl rfl rfl]
  simp [processLeafFields, jsGet, getField, jsOr, truthy]

/-! ### Behaviour of handleSubmit -/

theorem handleSubmitModel_eq (fd : FormData) (rd : RuleData)
    (hs : handleSubmitModel fd = some rd) :
    ∃ conditions actionsRaw actions,
      fd.conditions = some conditions ∧ fd.actions = some actionsRaw ∧
      normalizeActions actionsRaw = some actions ∧
      rd = { name := fd.name,
             priority := jsParseInt (jsOr (some fd.priority) (.num 100)),
             conditions := conditions,
             actions := actions,
             tags := ((jsSplit ',' fd.tags).map jsTrim).filter (fun t => !(t == "")),
             stop_on_match := fd.stop_on_match,
             description := if fd.description == "" then none else some fd.description } := by
  cases hc : fd.conditions with
  | none =>
    rw [show handleSubmitModel fd = none by unfold handleSubmitModel; simp only [hc]] at hs
    cases hs
  | some conditions =>
    cases ha : fd.actions with
    | none =>
      rw [show handleSubmitModel fd = none by
            unfold handleSubmitModel; simp only [hc, ha]] at hs
      cases hs
    | some actionsRaw =>
      cases hn : normalizeActions actionsRaw with
      | none =>
        rw [show handleSubmitModel fd = none by
              unfold handleSubmitModel; simp only [hc, ha, hn]] at hs
        cases hs
      | some actions =>
        have hval : handleSubmitModel fd =
            some { name := fd.name,
                   priority := jsParseInt (jsOr (some fd.priority) (.num 100)),
                   conditions := conditions,
                   actions := actions,
                   tags := ((jsSplit ',' fd.tags).map jsTrim).filter (fun t => !(t == "")),
                   stop_on_match := fd.stop_on_match,
                   description := if fd.description == "" then none
                                  else some fd.description } := by
          unfold handleSubmitModel
          simp only [hc, ha, hn]
        rw [hval] at hs
        exact ⟨conditions, actionsRaw, actions, rfl, rfl, hn, (Option.some.inj hs).symm⟩

/-- Raw action elements on which the normalization's property access
raises TypeError. -/
def rawActionThrows : Json → Bool
  | .null => true
  | .undef => true
  | _ => false

theorem normalizeAction_none_iff (a : Json) :
    normalizeAction a = none ↔ rawActionThrows a = true := by
  cases a <;> simp [normalizeAction, rawActionThrows]

theorem normalizeList_isSome (xs : List Json) :
    (normalizeList xs).isSome = xs.all (fun a => !rawActionThrows a) := by
  induction xs with
  | nil => simp [normalizeList]
  | cons a rest ih =>
    cases hna : normalizeAction a with
    | none =>
      have ht : rawActionThrows a = true := (normalizeAction_none_iff a).1 hna
      simp [normalizeList, hna, ht]
    | some nd =>
      have hf : rawActionThrows a = false := by
        cases hr : rawActionThrows a
        · rfl
        · rw [(normalizeAction_none_iff a).2 hr] at hna; cases hna
      cases hnr : normalizeList rest with
      | none =>
        rw [hnr] at ih
        simp [normalizeList, hna, hnr, hf, ← ih]
      | some nds =>
        rw [hnr] at ih
        simp [normalizeList, hna, hnr, hf, ← ih]

theorem normalizeList_forall₂ (xs : List Json) (l : List ActionData)
    (h : normalizeList xs = some l) :
    List.Forall₂ (fun a nd =>
      nd.type = jsOr (jsGet a "type") (.str "unknown") ∧
      nd.payload = jsOr (jsGet a "payload") (.obj [])) xs l := by
  induction xs generalizing l with
  | nil => simp [normalizeList] at h; subst h; exact .nil
  | cons a rest ih =>
    unfold normalizeList at h
    cases hna : normalizeAction a with
    | none => rw [hna] at h; exact absurd h (by simp)
    | some nd =>
      rw [hna] at h
      cases hnr : normalizeList rest with
      | none => rw [hnr] at h; exact absurd h (by simp)
      | some nds =>
        rw [hnr] at h
        simp at h
        subst h
        refine .cons ?_ (ih nds hnr)
        cases a with
        | null => cases hna
        | undef => cases hna
        | _ =>
          simp [normalizeAction] at hna
          rw [← hna]
          exact ⟨rfl, rfl⟩

/-- Whether handleSubmit's action normalization survives the parsed
actions value: the value must be present, and when it is an array every
element must tolerate property access. -/
def actionsNormalizeOk : Option Json → Bool
  | none => false
  | some (.arr xs) => xs.all (fun a => !rawActionThrows a)
  | some _ => true

/-- `j.isArr`: Array.isArray. -/
def Json.isArr : Json → Bool
  | .arr _ => true
  | _ => false

/-! ### parseInt on valid number-input values -/

theorem jsDigit_not_space (c : Char) (h : jsDigit c = true) : jsSpace c = false := by
  simp [jsDigit] at h
  simp [jsSpace]
  omega

theorem jsDigit_not_minus (c : Char) (h : jsDigit c = true) : (c == '-') = false := by
  simp [jsDigit] at h
  rw [beq_eq_false_iff_ne]
  intro he
  subst he
  revert h
  decide

theorem jsDigit_not_plus (c : Char) (h : jsDigit c = true) : (c == '+') = false := by
  simp [jsDigit] at h
  rw [beq_eq_false_iff_ne]
  intro he
  subst he
  revert h
  decide

theorem validUnsigned_head_digit (c : Char) (t : List Char)
    (h : validUnsigned (c :: t) = true) : jsDigit c = true := by
  unfold validUnsigned at h
  cases hd : jsDigit c
  · simp [List.takeWhile_cons, hd] at h
  · rfl

theorem validUnsigned_parseDigitRun (l : List Char) (h : validUnsigned l = true) :
    ∃ k : Nat, parseDigitRun l = .num (k : Int) := by
  unfold validUnsigned at h
  rw [Bool.and_eq_true] at h
  obtain ⟨h1, -⟩ := h
  have h1' : (l.takeWhile jsDigit).isEmpty = false := by
    cases hie : (l.takeWhile jsDigit).isEmpty
    · rfl
    · rw [hie] at h1; cases h1
  refine ⟨digitsToNat (l.takeWhile jsDigit), ?_⟩
  unfold parseDigitRun
  simp [h1']

theorem validNumberInput_parseInt (s : String) (h : isValidNumberInput s = true) :
    ∃ n : Int, parseIntStr s = .num n := by
  unfold isValidNumberInput at h
  unfold parseIntStr
  split at h
  case _ rest heq =>
    rw [heq]
    have hne : jsSpace '-' = false := by decide
    simp only [List.dropWhile_cons, hne, Bool.false_eq_true, if_false]
    simp only [show (('-' == '-') = true) from rfl, if_true]
    obtain ⟨k, hk⟩ := validUnsigned_parseDigitRun rest h
    exact ⟨-(k : Int), by rw [hk]⟩
  case _ l hne =>
    cases hd : s.data with
    | nil => rw [hd] at h; simp [validUnsigned, List.takeWhile] at h
    | cons c t =>
      rw [hd] at h
      have hdig : jsDigit c = true := validUnsigned_head_digit c t h
      have hsp := jsDigit_not_space c hdig
      have hm := jsDigit_not_minus c hdig
      have hp := jsDigit_not_plus c hdig
      simp only [List.dropWhile_cons, hsp, Bool.false_eq_true, if_false, hm, hp]
      obtain ⟨k, hk⟩ := validUnsigned_parseDigitRun (c :: t) h
      exact ⟨(k : Int), hk⟩

/-! ## Claim C1 -/

/-- Claim C1, counterexample: the leaf clause in the wire shape of §6,
whose field property is the FunctionCall object, is not recognized by
processClause as a days_since call and generates no example data — the
generator raises a TypeError (calling startsWith on the object), modelled
as `none`. -/
theorem processClause_wire_functionCall_raises :
    jsGet (wireFnClause "context.user.signup_date" (.str ">=") (.num 3)) "field" =
      some (.obj [("fn", .str "days_since"), ("args", .arr [.str "context.user.signup_date"])])
    ∧ processClause 0 (wireFnClause "context.user.signup_date" (.str ">=") (.num 3))
        initialGenState = none :=
  ⟨rfl, wire_field_object_raises 0 initialGenState
          [("fn", .str "days_since"), ("args", .arr [.str "context.user.signup_date"])]
          (.str ">=") (.num 3)⟩

/-- Claim C1 (amended): processClause recognizes a days_since call only
when the fn and args properties sit directly on the clause itself; for
such clauses it generates example data exactly for argument paths that
mention event.timestamp or context.user.signup_date and leaves the state
unchanged for any other path, while a §6-shaped leaf whose field is the
FunctionCall object makes processClause raise a TypeError and generate
nothing. -/
theorem processClause_fn_inline_only (now : Nat) (st : GenState) (p : String) (op v : Json) :
    (jsIncludes p "event.timestamp" = true →
       processClause now (fnClause p op v) st =
         some (setEv st "timestamp" (.dateTime (now : Int))))
    ∧ (∀ ufs, getField st.context "user" = some (.obj ufs) →
        jsIncludes p "event.timestamp" = false →
        jsIncludes p "context.user.signup_date" = true →
        processClause now (fnClause p op v) st =
          some ⟨st.event, setField st.context "user"
                  (.obj (setField ufs "signup_date" (fiveDaysAgo now)))⟩)
    ∧ (jsIncludes p "event.timestamp" = false →
        jsIncludes p "context.user.signup_date" = false →
        processClause now (fnClause p op v) st = some st)
    ∧ (∀ ffs, processClause now (.obj [("field", .obj ffs), ("op", op), ("value", v)]) st
          = none) :=
  ⟨fun h1 => fn_timestamp_sets now st p h1 op v,
   fun ufs hu h1 h2 => fn_signup_sets now st ufs hu p h1 h2 op v,
   fun h1 h2 => fn_other_path_noop now st p h1 h2 op v,
   fun ffs => wire_field_object_raises now st ffs op v⟩

theorem processClause_fn_inline_only_witness :
    processClause 0 (fnClause "event.timestamp" (.str ">=") (.num 3)) initialGenState =
      some (setEv initialGenState "timestamp" (.dateTime 0))
    ∧ processClause 0 (fnClause "context.user.signup_date" (.str ">=") (.num 3))
        initialGenState =
      some ⟨initialGenState.event,
            setField initialGenState.context "user"
              (.obj (setField [] "signup_date" (fiveDaysAgo 0)))⟩
    ∧ processClause 0 (fnClause "event.other" (.str ">=") (.num 3)) initialGenState =
      some initialGenState
    ∧ processClause 0 (.obj [("field", .obj [("fn", .str "days_since")]),
        ("op", .str ">="), ("value", .num 3)]) initialGenState = none :=
  ⟨(processClause_fn_inline_only 0 initialGenState "event.timestamp"
      (.str ">=") (.num 3)).1 (by decide),
   (processClause_fn_inline_only 0 initialGenState "context.user.signup_date"
      (.str ">=") (.num 3)).2.1 [] rfl (by decide) (by decide),
   (processClause_fn_inline_only 0 initialGenState "event.other"
      (.str ">=") (.num 3)).2.2.1 (by decide) (by decide),
   (processClause_fn_inline_only 0 initialGenState "x"
      (.str ">=") (.num 3)).2.2.2 [("fn", .str "days_since")]⟩

/-! ## Claim C2 -/

/-- Claim C2 (confirmed): the default conditions template of the
create-rule form is exactly the §8 scenario condition — the AND of
context.user.tier == "premium" followed by event.cart.total >= 1000, in
that order — and the declared default actions survive handleSubmit's
normalization unchanged, so the declared rule actions are what a
submission of the defaults carries. -/
theorem createRule_default_template_matches_scenario :
    createRuleDefaultConditions = spec8ScenarioCondition
    ∧ normalizeActions createRuleDefaultActions =
        some [⟨.str "apply_discount", .obj [("percent", .num 10)]⟩,
              ⟨.str "log", .obj [("tag", .str "promo_applied")]⟩] :=
  ⟨rfl, rfl⟩

/-! ## Claim C3 -/

theorem getExampleData_signup (now : Nat) (op v : Json) :
    getExampleData now (some (.obj [("conditions",
        .obj [("type", .str "AND"), ("clauses", .arr [leafSignupClause op v])])])) =
      some ⟨[("type", .str "purchase"), ("amount", .num 1000)],
            [("user", .obj [("signup_date", fiveDaysAgo now)])]⟩ := by
  have hleaf := leaf_signup_sets now initialGenState [] rfl op v
  unfold getExampleData
  simp +decide only [jsGet, getField, truthy, truthyO, if_true, if_false]
  rw [processList_cons, hleaf]
  simp +decide [initialGenState, setField, processList_nil, applyDefaults, getField, jsKeysLen]

/-- Claim C3 (confirmed): a days_since function-call clause whose
argument path names context.user.signup_date, and the leaf clause on the
context.user.signup_date field (detected through its last path segment
signup_date), both make the generator write a date-only signup_date whose
day number is exactly five days before the captured current date; on that
value the spec's days_since yields 5, so the §8 comparison >= 3 holds on
the generated example.  The last conjunct states it for getExampleData on
a rule holding the single leaf clause. -/
theorem signup_date_clause_five_days_before (now : Nat) (st : GenState)
    (ufs : List (String × Json)) (hu : getField st.context "user" = some (.obj ufs))
    (p : String)
    (hp1 : jsIncludes p "event.timestamp" = false)
    (hp2 : jsIncludes p "context.user.signup_date" = true) (op v : Json) :
    (processClause now (fnClause p op v) st =
       some ⟨st.event, setField st.context "user"
               (.obj (setField ufs "signup_date" (fiveDaysAgo now)))⟩)
    ∧ (processClause now (leafSignupClause op v) st =
       some ⟨st.event, setField st.context "user"
               (.obj (setField ufs "signup_date" (fiveDaysAgo now)))⟩)
    ∧ getField (setField ufs "signup_date" (fiveDaysAgo now)) "signup_date" =
        some (fiveDaysAgo now)
    ∧ fiveDaysAgo now = .dateOnly (((now / msPerDay : Nat) : Int) - 5)
    ∧ daysSinceSpec now (fiveDaysAgo now) = some 5
    ∧ ((3 : Int) ≤ 5)
    ∧ getExampleData now (some (.obj [("conditions",
          .obj [("type", .str "AND"), ("clauses", .arr [leafSignupClause op v])])])) =
        some ⟨[("type", .str "purchase"), ("amount", .num 1000)],
              [("user", .obj [("signup_date", fiveDaysAgo now)])]⟩ :=
  ⟨fn_signup_sets now st ufs hu p hp1 hp2 op v,
   leaf_signup_sets now st ufs hu op v,
   getField_setField ufs "signup_date" (fiveDaysAgo now),
   rfl,
   daysSince_fiveDaysAgo now,
   by norm_num,
   getExampleData_signup now op v⟩

theorem signup_date_clause_five_days_before_witness :
    processClause 1728000000000 (leafSignupClause (.str ">=") (.num 3)) initialGenState =
      some ⟨[], [("user", .obj [("signup_date", .dateOnly 19995)])]⟩
    ∧ daysSinceSpec 1728000000000 (.dateOnly 19995) = some 5 :=
  ⟨(signup_date_clause_five_days_before 1728000000000 initialGenState [] rfl
      "context.user.signup_date" (by decide) (by decide) (.str ">=") (.num 3)).2.1,
   (signup_date_clause_five_days_before 1728000000000 initialGenState [] rfl
      "context.user.signup_date" (by decide) (by decide) (.str ">=") (.num 3)).2.2.2.2.1⟩

/-! ## Claim C4 -/

/-- Claim C4 (confirmed): SimulateModal renders the would-execute actions
block exactly when the rendered result's matched property is the boolean
true (matched is a boolean by the Match Result contract), and renders no
result block at all when no result is present. -/
theorem shows_would_execute_iff_matched (r : Json) (b : Bool)
    (hm : jsGet r "matched" = some (.bool b)) (hr : truthy r = true) :
    showsWouldExecute (some r) = b ∧ showsWouldExecute none = false := by
  constructor
  · simp only [showsWouldExecute]
    rw [hr, hm]
    simp [truthyO, truthy]
  · rfl

theorem shows_would_execute_iff_matched_witness :
    showsWouldExecute (some (.obj [("matched", .bool true), ("would_execute", .arr [])])) = true
    ∧ showsWouldExecute none = false :=
  shows_would_execute_iff_matched
    (.obj [("matched", .bool true), ("would_execute", .arr [])]) true rfl rfl

/-! ## Claim C5 -/

/-- Claim C5, counterexample: a create-rule submission whose two JSON
inputs both parse (conditions an object, actions the array holding one
null element) still invokes no callback — the normalization's property
access on the null element throws into the same catch block, so
onCreate is not called even though every JSON text input parsed. -/
theorem submit_parse_ok_but_callback_not_invoked :
    (Option.isSome (some (Json.obj []) : Option Json) = true)
    ∧ (Option.isSome (some (Json.arr [.null]) : Option Json) = true)
    ∧ handleSubmitModel ⟨"r", .num 100, "", some (.obj []), some (.arr [.null]), "", false⟩
        = none :=
  ⟨rfl, rfl, rfl⟩

/-- Claim C5 (amended): SimulateModal's run invokes onSimulate exactly
when both the event and the context JSON inputs parse; CreateRuleModal's
handleSubmit invokes onCreate exactly when both JSON inputs parse and the
actions normalization survives (every element of a parsed actions array
tolerates property access — a null element throws).  When a parse or the
normalization throws, the catch block runs and no callback is invoked. -/
theorem run_and_submit_invoke_iff (e c : Option Json) (fd : FormData) :
    (runModel e c).isSome = (e.isSome && c.isSome)
    ∧ (handleSubmitModel fd).isSome = (fd.conditions.isSome && actionsNormalizeOk fd.actions) := by
  constructor
  · cases e <;> cases c <;> rfl
  · cases hc : fd.conditions with
    | none => unfold handleSubmitModel; simp only [hc]; simp [actionsNormalizeOk]
    | some c0 =>
      cases ha : fd.actions with
      | none => unfold handleSubmitModel; simp only [hc, ha]; simp [actionsNormalizeOk]
      | some j =>
        unfold handleSubmitModel
        simp only [hc, ha]
        cases j <;> simp [normalizeActions, actionsNormalizeOk]
        rename_i xs
        rw [← normalizeList_isSome xs]
        cases hnl : normalizeList xs <;> simp [hnl]

/-! ## Claim C6 -/

/-- Claim C6, counterexample: a clause carrying an fn property whose
value is the falsy empty string — a function name other than days_since —
falls through to the field handlers and does generate example fields
(event.type here), so fn-carrying clauses are not handled only for
days_since as stated. -/
theorem processClause_falsy_fn_generates_fields :
    jsGet falsyFnClause "fn" = some (.str "")
    ∧ isStr (.str "") "days_since" = false
    ∧ processClause 0 falsyFnClause initialGenState =
        some ⟨[("type", .str "x")], [("user", .obj [])]⟩ :=
  ⟨rfl, rfl, by rw [processClause_eq_leaf 0 falsyFnClause initialGenState rfl rfl rfl]; rfl⟩

/-- Claim C6 (amended): for every non-logical clause whose fn property is
truthy, example fields are generated only when fn strictly equals
"days_since": any other truthy function name leaves the example state
unchanged.  (A falsy fn value, such as the empty string, is treated as
absent and the clause falls through to field processing.) -/
theorem processClause_truthy_fn_only_days_since (now : Nat) (st : GenState)
    (clause fnv : Json) (hfn : jsGet clause "fn" = some fnv)
    (ht : truthy fnv = true) (hnd : isStr fnv "days_since" = false)
    (hnl : (truthyO (jsGet clause "type") && truthyO (jsGet clause "clauses")) = false) :
    processClause now clause st = some st := by
  have hobj : ∃ fs, clause = .obj fs := by
    cases clause <;> simp [jsGet] at hfn ⊢
  obtain ⟨fs, rfl⟩ := hobj
  rw [processClause_eq_fn now (.obj fs) st rfl hnl (by simp [truthyO, hfn, ht])]
  simp [processFn, isStrO, hfn, hnd]

theorem processClause_truthy_fn_only_days_since_witness :
    processClause 3 (.obj [("fn", .str "other_fn")]) initialGenState =
      some initialGenState :=
  processClause_truthy_fn_only_days_since 3 initialGenState
    (.obj [("fn", .str "other_fn")]) (.str "other_fn") rfl (by decide) (by decide) rfl

/-! ## Claim C7 -/

/-- Claim C7 (confirmed): on a logical node — truthy type together with a
clauses array — processClause dispatches to the in-order fold over the
clauses list, which processes each element in order and terminates (the
processor is a total function of the finite, acyclic clause tree). -/
theorem processClause_logical_recurses_in_order (now : Nat) (st : GenState)
    (ty : Json) (hty : truthy ty = true) (xs : List Json) :
    processClause now (.obj [("type", ty), ("clauses", .arr xs)]) st = processList now xs st
    ∧ processList now [] st = some st
    ∧ (∀ c rest st0, processList now (c :: rest) st0 =
        match processClause now c st0 with
        | none => none
        | some st' => processList now rest st') :=
  ⟨processClause_eq_logical now (.obj [("type", ty), ("clauses", .arr xs)]) st xs rfl
      (by simp [jsGet, getField, truthyO, hty]) (by simp +decide [jsGet, getField]),
   processList_nil now st,
   fun c rest st0 => processList_cons now c rest st0⟩

theorem processClause_logical_recurses_in_order_witness :
    processClause 0 (.obj [("type", .str "AND"), ("clauses", .arr [])]) initialGenState =
      processList 0 [] initialGenState
    ∧ processList 0 [] initialGenState = some initialGenState :=
  ⟨(processClause_logical_recurses_in_order 0 initialGenState (.str "AND") (by decide) []).1,
   (processClause_logical_recurses_in_order 0 initialGenState (.str "AND") (by decide) []).2.1⟩

/-! ## Claim C8 -/

/-- Claim C8, counterexample: a parsed actions array holding the element
with type the empty string and payload the number 5 is submitted with
type "unknown" — not the parsed element's type, which is present — and
with payload 5, which is not an object: present-but-falsy properties are
replaced by the defaults and nothing coerces types to strings or
payloads to objects. -/
theorem submit_actions_not_as_claimed :
    (handleSubmitModel ⟨"r", .num 100, "", some (.obj []),
        some (.arr [.obj [("type", .str ""), ("payload", .num 5)]]), "", false⟩).map
      (fun rd => rd.actions) = some [⟨.str "unknown", .num 5⟩]
    ∧ isStr (.str "unknown") "" = false
    ∧ (Json.num 5).isObj = false :=
  ⟨rfl, rfl, rfl⟩

/-- Claim C8 (amended): every rule submitted by handleSubmit has actions
obtained elementwise from the parsed actions array — each element's type
is its type property when truthy and "unknown" when absent or falsy, its
payload its payload property when truthy and the empty object when absent
or falsy — and the empty list when the parsed actions JSON is not an
array. -/
theorem submit_actions_normalized_shape (fd : FormData) (rd : RuleData)
    (hs : handleSubmitModel fd = some rd) :
    (∀ xs, fd.actions = some (.arr xs) →
       List.Forall₂ (fun a nd =>
         nd.type = jsOr (jsGet a "type") (.str "unknown") ∧
         nd.payload = jsOr (jsGet a "payload") (.obj [])) xs rd.actions)
    ∧ (∀ j, fd.actions = some j → j.isArr = false → rd.actions = []) := by
  obtain ⟨c0, araw, acts, hc, ha, hn, rfl⟩ := handleSubmitModel_eq fd rd hs
  constructor
  · intro xs hxa
    rw [ha] at hxa
    obtain rfl : araw = .arr xs := Option.some.inj hxa
    unfold normalizeActions at hn
    exact normalizeList_forall₂ xs acts hn
  · intro j hj hnarr
    rw [ha] at hj
    have hji : araw = j := Option.some.inj hj
    subst hji
    cases araw
    case arr xs => simp [Json.isArr] at hnarr
    all_goals
      unfold normalizeActions at hn
      simp at hn
      simp [← hn]

theorem submit_actions_normalized_shape_witness :
    List.Forall₂ (fun a nd =>
        ActionData.type nd = jsOr (jsGet a "type") (.str "unknown") ∧
        ActionData.payload nd = jsOr (jsGet a "payload") (.obj []))
      [.obj [("type", .str "t"), ("payload", .obj [])]]
      [⟨.str "t", .obj []⟩] :=
  (submit_actions_normalized_shape
      ⟨"r", .num 100, "", some (.obj []),
       some (.arr [.obj [("type", .str "t"), ("payload", .obj [])]]), "", false⟩
      ⟨"r", .num 100, .obj [], [⟨.str "t", .obj []⟩], [], false, none⟩
      rfl).1
    [.obj [("type", .str "t"), ("payload", .obj [])]] rfl

/-! ## Claim C9 -/

/-- Claim C9 (confirmed): for every submission with the priority field in
a state the number input can produce — the initial number 100 or a string
that is empty or a valid floating-point numeral — the submitted priority
is parseInt radix 10 of the field (100 for the untouched initial state),
is 100 when the field is empty, and is always an integer (never NaN). -/
theorem submit_priority_integer (fd : FormData) (rd : RuleData)
    (hs : handleSubmitModel fd = some rd) (hre : priorityReachable fd.priority) :
    (fd.priority = .str "" → rd.priority = .num 100)
    ∧ (∀ s, fd.priority = .str s → s ≠ "" → rd.priority = parseIntStr s)
    ∧ (fd.priority = .num 100 → rd.priority = .num 100)
    ∧ (∃ n : Int, rd.priority = .num n) := by
  obtain ⟨c0, araw, acts, hc, ha, hn, rfl⟩ := handleSubmitModel_eq fd rd hs
  rcases hre with h100 | ⟨s, hps, hval⟩
  · refine ⟨fun h => ?_, fun s h => ?_, fun _ => ?_, ⟨100, ?_⟩⟩
    · rw [h100] at h; simp at h
    · rw [h100] at h; simp at h
    · show jsParseInt (jsOr (some fd.priority) (.num 100)) = .num 100
      rw [h100]; rfl
    · show jsParseInt (jsOr (some fd.priority) (.num 100)) = .num 100
      rw [h100]; rfl
  · rcases hval with rfl | hval
    · refine ⟨fun _ => ?_, fun s' h hne' => ?_, fun h => ?_, ⟨100, ?_⟩⟩
      · show jsParseInt (jsOr (some fd.priority) (.num 100)) = .num 100
        rw [hps]; rfl
      · rw [hps] at h
        injection h with h2
        exact absurd h2.symm hne'
      · rw [hps] at h; simp at h
      · show jsParseInt (jsOr (some fd.priority) (.num 100)) = .num 100
        rw [hps]; rfl
    · have hne : s ≠ "" := by
        intro he; rw [he] at hval; simp [isValidNumberInput, validUnsigned] at hval
      have hpr : jsParseInt (jsOr (some fd.priority) (.num 100)) = parseIntStr s := by
        rw [hps]
        simp [jsOr, truthy, hne, jsParseInt, jsStringCoerce, jsElemStr]
      obtain ⟨n, hni⟩ := validNumberInput_parseInt s hval
      refine ⟨fun h => ?_, fun s' h hne' => ?_, fun h => ?_, ⟨n, ?_⟩⟩
      · rw [hps] at h
        injection h with h2
        exact absurd h2 hne
      · rw [hps] at h
        injection h with h2
        subst h2
        exact hpr
      · rw [hps] at h; simp at h
      · show jsParseInt (jsOr (some fd.priority) (.num 100)) = .num n
        rw [hpr, hni]

theorem submit_priority_integer_witness :
    Json.num 42 = parseIntStr "42" ∧ ∃ n : Int, Json.num 42 = Json.num n :=
  ⟨(submit_priority_integer
      ⟨"r", .str "42", "", some (.obj []), some (.arr []), "", false⟩
      ⟨"r", .num 42, .obj [], [], [], false, none⟩ rfl
      (Or.inr ⟨"42", rfl, Or.inr (by decide)⟩)).2.1 "42" rfl (by decide),
   (submit_priority_integer
      ⟨"r", .str "42", "", some (.obj []), some (.arr []), "", false⟩
      ⟨"r", .num 42, .obj [], [], [], false, none⟩ rfl
      (Or.inr ⟨"42", rfl, Or.inr (by decide)⟩)).2.2.2⟩

/-! ## Claim C10 -/

/-- Claim C10 (confirmed): every submitted rule's tags are the
comma-separated tags input split on commas, each entry trimmed and the
empty entries removed, so the submitted tags list never contains an empty
string. -/
theorem submit_tags_split_trim_nonempty (fd : FormData) (rd : RuleData)
    (hs : handleSubmitModel fd = some rd) :
    rd.tags = ((jsSplit ',' fd.tags).map jsTrim).filter (fun t => !(t == ""))
    ∧ ∀ t ∈ rd.tags, t ≠ "" := by
  obtain ⟨c0, araw, acts, hc, ha, hn, rfl⟩ := handleSubmitModel_eq fd rd hs
  refine ⟨rfl, fun t ht => ?_⟩
  have := (List.mem_filter.1 ht).2
  simpa using this

theorem submit_tags_split_trim_nonempty_witness :
    (["discount", "promo"] : List String) =
      ((jsSplit ',' "discount, promo").map jsTrim).filter (fun t => !(t == ""))
    ∧ ∀ t ∈ (["discount", "promo"] : List String), t ≠ "" :=
  submit_tags_split_trim_nonempty
    ⟨"r", .num 100, "", some (.obj []), some (.arr []), "discount, promo", false⟩
    ⟨"r", .num 100, .obj [], [], ["discount", "promo"], false, none⟩ rfl

end RulesEngine
